import Mathlib

/-!
Verification of the phylop_scores sampling-and-scoring core
(`lib/features.py`, `lib/libtools.py`).

Shallow embedding conventions:
* BED records carry a chromosome, integer half-open coordinates and a
  rational score (modelling the Python float score field exactly for the
  arithmetic the code performs: sums and divisions).
* The external collaborators `run_bedextract` (BEDOPS range query) and
  `check_overlap` (pybedtools intersect) are modelled by their documented
  contracts: a store is a position-sorted list of records, a range query
  returns the records overlapping the query interval (at least one base,
  half-open semantics), and the NA sentinel query short-circuits to the
  empty result.  An empty `BedTool` compares equal to the empty string in
  pybedtools, so the code's `!= ''` tests are modelled as `≠ []`.
* Python's `random.shuffle`-then-take-first, `random.randrange` and
  `random.choice` are driven by an explicit tape of draws, one entry per
  loop attempt; `randrange(a, b)` maps a draw into `[a, b)` and raises
  `ValueError` when the range is empty, exactly as in CPython.
* Python exceptions (`IndexError` from list indexing, `ValueError` from
  `randrange`, `UnboundLocalError` from reading a never-assigned local)
  are modelled with `Except PyErr`.
* The `while True` loops with an `attempts == MAX_ATTEMPTS` break are
  modelled by `runLoop` with fuel 100 starting at attempt 1, which is
  exactly the set of attempt indices the Python loop visits.
* Python's `name.split("_")` is modelled by `pySplit`, a structural
  splitter over the name's character list that agrees with `str.split` for
  the single-character separator; the test `"_" in name` holds iff
  `2 ≤ (pySplit name).length`, and `name.split("_")[i]` becomes list
  indexing into `pySplit name`.
-/

namespace PhyloP

/-- Python exceptions that the modelled code can raise. -/
inductive PyErr where
  | indexError : PyErr
  | valueError : PyErr
  | unboundLocal : PyErr
deriving DecidableEq

/-- One record of a BED score file: chromosome, half-open coordinates and
the numeric score field. -/
structure BedRec where
  chrom : String
  start : ℤ
  stop : ℤ
  score : ℚ
deriving DecidableEq

/-- A BED interval string as passed between the Python functions: either a
real `"chrom\tstart\tend"` triple or the `"NA\tNA\tNA"` sentinel. -/
inductive BedRegion where
  | reg (chrom : String) (start stop : ℤ) : BedRegion
  | sentinel : BedRegion
deriving DecidableEq

/-- The heterogeneous result channel of the simulation methods: a float
mean score, the string "NA", or one of the two NameError strings. -/
inductive SimScore where
  | val (x : ℚ) : SimScore
  | NA : SimScore
  | nameError1 : SimScore
  | nameError2 : SimScore
deriving DecidableEq

/-- The attributes `Feature.__init__` copies out of a BedTool entry. -/
structure Feature where
  chrom : String
  start : ℤ
  stop : ℤ
  name : String
  strand : String
deriving DecidableEq

/-- `self.size = int(feature.end) - int(feature.start)`. -/
def Feature.size (f : Feature) : ℤ := f.stop - f.start

/-- `feature_string = "%s\t%s\t%s" % (self.chrom, self.start, self.end)`. -/
def Feature.featureString (f : Feature) : BedRegion :=
  BedRegion.reg f.chrom f.start f.stop

/-- Overlap test of one stored record against a query triple: chromosomes
match and the half-open ranges intersect with nonzero length. -/
def overlapsRec (c : String) (s e : ℤ) (r : BedRec) : Bool :=
  c == r.chrom && decide (max s r.start < min e r.stop)

/-- `check_overlap` from `libtools.py`: pybedtools intersection of two BED
strings, nonempty iff the intervals share at least one base. -/
def check_overlap : BedRegion → BedRegion → Bool
  | BedRegion.reg c1 s1 e1, BedRegion.reg c2 s2 e2 =>
      c1 == c2 && decide (max s1 s2 < min e1 e2)
  | _, _ => false

/-- `run_bedextract` from `libtools.py`: the NA sentinel short-circuits to
the empty result, otherwise the sorted store is filtered down to the
records overlapping the query region. -/
def run_bedextract (bed_region : BedRegion) (bed_file : List BedRec) :
    List BedRec :=
  match bed_region with
  | BedRegion.sentinel => []
  | BedRegion.reg c s e => bed_file.filter (overlapsRec c s e)

/-- `calculate_mean_score` from `libtools.py`: "NA" on the empty query
result, otherwise the numpy mean (sum divided by length) of the score
fields. -/
def calculate_mean_score (query_regions : List BedRec) : SimScore :=
  if query_regions = [] then SimScore.NA
  else SimScore.val (((query_regions.map BedRec.score).sum) /
    ((query_regions.length : ℕ) : ℚ))

/-- `Feature.flanking_regions`: the right window starts `window_r` after the
feature end, the left window ends `window_l` before the feature start, both
of the feature's own size.  (The Python defaults are `window_r=window_l=1`.) -/
def Feature.flanking_regions (f : Feature) (window_r window_l : ℤ) :
    BedRegion × BedRegion :=
  let right_interval := (f.stop + window_r, f.stop + f.size + window_r)
  let left_interval := ((f.start - window_l) - f.size, f.start - window_l)
  (BedRegion.reg f.chrom right_interval.1 right_interval.2,
   BedRegion.reg f.chrom left_interval.1 left_interval.2)

/-- `Feature.flanking_simulation`: the four-way decision over which flank
windows overlap the not-allowed store, then the two-sided score merge. -/
def Feature.flanking_simulation (f : Feature)
    (not_allowed_regions_bed query_bed : List BedRec) : SimScore :=
  let rl := f.flanking_regions 1 1
  let right_flank := rl.1
  let left_flank := rl.2
  let intersect_r := run_bedextract right_flank not_allowed_regions_bed
  let intersect_l := run_bedextract left_flank not_allowed_regions_bed
  if intersect_r ≠ [] ∧ intersect_l ≠ [] then
    SimScore.NA
  else if intersect_r ≠ [] ∧ intersect_l = [] then
    calculate_mean_score (run_bedextract left_flank query_bed)
  else if intersect_r = [] ∧ intersect_l ≠ [] then
    calculate_mean_score (run_bedextract right_flank query_bed)
  else
    let score_l := calculate_mean_score (run_bedextract left_flank query_bed)
    let score_r := calculate_mean_score (run_bedextract right_flank query_bed)
    match score_l, score_r with
    | SimScore.val a, SimScore.val b => SimScore.val ((a + b) / 2)
    | SimScore.val a, _ => SimScore.val a
    | _, SimScore.val b => SimScore.val b
    | _, _ => SimScore.NA

/-- Spec-side notion: a flank window overlaps the not-allowed store iff some
stored record shares at least one base with it on the same chromosome. -/
def windowOverlaps : BedRegion → List BedRec → Prop
  | BedRegion.reg c s e, store => ∃ r ∈ store, overlapsRec c s e r = true
  | BedRegion.sentinel, _ => False

/-- Spec-side notion: the arithmetic mean of the score field over a window's
score-store matches. -/
def sideMean (w : BedRegion) (q : List BedRec) : ℚ :=
  (((run_bedextract w q).map BedRec.score).sum) /
    (((run_bedextract w q).length : ℕ) : ℚ)

theorem windowOverlaps_iff (c : String) (s e : ℤ) (store : List BedRec) :
    windowOverlaps (BedRegion.reg c s e) store ↔
      run_bedextract (BedRegion.reg c s e) store ≠ [] := by
  constructor
  · rintro ⟨r, hr, hov⟩ hnil
    have := List.filter_eq_nil_iff.mp hnil r hr
    simp [hov] at this
  · intro hne
    rcases List.exists_mem_of_ne_nil _ hne with ⟨r, hr⟩
    rcases List.mem_filter.mp hr with ⟨hmem, hov⟩
    exact ⟨r, hmem, hov⟩

/-- CPython `random.randrange(a, b)`: raises `ValueError` on an empty range
and otherwise returns a value in `[a, b)`; the tape draw selects which one. -/
def randrange (a b : ℤ) (draw : ℕ) : Except PyErr ℤ :=
  if a < b then Except.ok (a + ((draw % (b - a).toNat : ℕ) : ℤ))
  else Except.error PyErr.valueError

/-- `regions_copy = allowed_regions[:]; random.shuffle(regions_copy);
regions_copy[0]`: shuffling then taking the head picks one element of the
list, selected here by the tape draw; the empty list raises `IndexError`. -/
def pickRegion (allowed : List (ℤ × ℤ)) (i : ℕ) : Except PyErr (ℤ × ℤ) :=
  match allowed with
  | [] => Except.error PyErr.indexError
  | a :: rest =>
      Except.ok ((a :: rest).get
        ⟨i % (a :: rest).length, Nat.mod_lt _ (Nat.succ_pos rest.length)⟩)

/-- The `while True: attempts += 1; ...` pattern with a hard
`attempts == MAX_ATTEMPTS` break: run `step` at attempts `k`, `k+1`, ... for
at most `fuel` iterations; an attempt either raises, accepts a value, or
rejects and the loop continues; on fuel exhaustion the default is returned. -/
def runLoop {α : Type} (step : ℕ → Except PyErr (Option α)) (dflt : α) :
    ℕ → ℕ → Except PyErr α
  | _, 0 => Except.ok dflt
  | k, fuel + 1 =>
      match step k with
      | Except.error e => Except.error e
      | Except.ok (some a) => Except.ok a
      | Except.ok none => runLoop step dflt (k + 1) fuel

/-- One attempt of the `Feature.random_regions` loop: pick an allowed region,
draw a start inside it, extend by the feature size, and accept iff the end
stays strictly inside the region and the candidate misses the feature. -/
def randomRegionsStep (f : Feature) (allowed : List (ℤ × ℤ)) (t : ℕ × ℕ) :
    Except PyErr (Option BedRegion) := do
  let region ← pickRegion allowed t.1
  let random_start ← randrange region.1 region.2 t.2
  let random_end := random_start + f.size
  let random_string := BedRegion.reg f.chrom random_start random_end
  let intersect := check_overlap f.featureString random_string
  if random_end < region.2 ∧ intersect = false then
    pure (some random_string)
  else
    pure none

/-- `Feature.random_regions`: the bounded rejection-sampling loop,
`MAX_ATTEMPTS = 100`, falling back to the `"NA\tNA\tNA"` sentinel. -/
def Feature.random_regions (f : Feature) (allowed : List (ℤ × ℤ))
    (tape : ℕ → ℕ × ℕ) : Except PyErr BedRegion :=
  runLoop (fun k => randomRegionsStep f allowed (tape k)) BedRegion.sentinel 1 100

/-- `sorted([a, b])` for a two-element list. -/
def sorted2 (a b : ℤ) : ℤ × ℤ := if a ≤ b then (a, b) else (b, a)

/-- The raw downstream window of `Feature.random_flanking_regions`:
`sorted([self.end + 1, self.end + window_r])`. -/
def rightWindow (f : Feature) (window_r : ℤ) : ℤ × ℤ :=
  sorted2 (f.stop + 1) (f.stop + window_r)

/-- The raw upstream window of `Feature.random_flanking_regions`, clamped at
zero when the window reaches past the chromosome start. -/
def leftWindow (f : Feature) (window_l : ℤ) : ℤ × ℤ :=
  if window_l ≥ f.start then sorted2 (f.start - 1) 0
  else sorted2 (f.start - 1) (f.start - window_l)

/-- Inert default record for total list indexing; never consulted, because
the code only indexes lists it has just checked to be non-empty. -/
def emptyRec : BedRec := ⟨"", 0, 0, 0⟩

/-- The candidate-construction part of one `random_flanking_regions` attempt:
query the not-allowed store with the chosen window; with no overlap draw from
the whole window, otherwise shrink to the gap next to the feature on that
side (`gene_overlap[len(gene_overlap) - 1]` is the last record, modelled by
`getLastD`; `UnboundLocalError` when neither side test matches, since Python
would then read the never-assigned `random_start`). -/
def flankingCandidate (f : Feature) (not_allowed : List BedRec)
    (flanking : ℤ × ℤ) (draw : ℕ) : Except PyErr (ℤ × ℤ) :=
  let flank := BedRegion.reg f.chrom flanking.1 flanking.2
  match run_bedextract flank not_allowed with
  | [] => do
      let random_start ← randrange flanking.1 flanking.2 draw
      pure (random_start, random_start + f.size)
  | g :: gs =>
      if flanking.2 < f.start then do
        let distance := f.start - ((g :: gs).getLastD emptyRec).stop
        let random_start ← randrange (f.start - distance) f.start draw
        pure (random_start, random_start + f.size)
      else if flanking.2 > f.stop then do
        let distance := g.start - f.stop
        let random_start ← randrange f.stop (f.stop + distance) draw
        pure (random_start, random_start + f.size)
      else Except.error PyErr.unboundLocal

/-- One attempt of the `Feature.random_flanking_regions` loop: choose the
right or left window by a coin flip, build a candidate, and accept iff its
end is strictly below the chosen window's original upper bound and it misses
the feature. -/
def randomFlankingStep (f : Feature) (not_allowed : List BedRec)
    (right left : ℤ × ℤ) (t : Bool × ℕ) : Except PyErr (Option BedRegion) := do
  let flanking := if t.1 then right else left
  let rse ← flankingCandidate f not_allowed flanking t.2
  let random_string := BedRegion.reg f.chrom rse.1 rse.2
  let intersect := check_overlap f.featureString random_string
  if rse.2 < flanking.2 ∧ intersect = false then
    pure (some random_string)
  else
    pure none

/-- `Feature.random_flanking_regions`: bounded rejection sampling over the
two flanking windows (the Python defaults are `window_r=window_l=10000`). -/
def Feature.random_flanking_regions (f : Feature) (not_allowed : List BedRec)
    (window_r window_l : ℤ) (tape : ℕ → Bool × ℕ) : Except PyErr BedRegion :=
  runLoop
    (fun k => randomFlankingStep f not_allowed
      (rightWindow f window_r) (leftWindow f window_l) (tape k))
    BedRegion.sentinel 1 100

/-- Python `name.split("_")`, specialised to the one-character separator:
accumulate characters until an underscore, emit the field, continue. -/
def pySplitAux : List Char → List Char → List String
  | [], acc => [String.mk acc.reverse]
  | c :: cs, acc =>
      if c = '_' then String.mk acc.reverse :: pySplitAux cs []
      else pySplitAux cs (c :: acc)

/-- Python `s.split("_")`: always non-empty, one more field than there are
underscores in `s`; in particular `s` contains an underscore iff the result
has at least two fields. -/
def pySplit (s : String) : List String := pySplitAux s.toList []

/-- One attempt of the outer `random_intragenic_simulation` loop: draw a
fresh random region, query the score store, and accept its mean score iff
the query was non-empty. -/
def intragenicStep (f : Feature) (allowed_regions : List (ℤ × ℤ))
    (query_bed : List BedRec) (t : ℕ → ℕ × ℕ) :
    Except PyErr (Option SimScore) := do
  let random_region ← f.random_regions allowed_regions t
  let random_features := run_bedextract random_region query_bed
  if random_features ≠ [] then
    pure (some (calculate_mean_score random_features))
  else
    pure none

/-- The `(names[1], names[2], self.chrom)` key built by
`random_intragenic_simulation` (defined via `getD`; the callers guard the
list length so the defaults are never consulted). -/
def Feature.intragenicKey (f : Feature) : String × String × String :=
  ((pySplit f.name).getD 1 "", (pySplit f.name).getD 2 "", f.chrom)

/-- `Feature.random_intragenic_simulation`: the underscore check, the
dictionary lookup of the decoded key, then the 100-attempt
sample-then-query loop whose exhaustion value is
`calculate_mean_score('') = "NA"`.  A name that splits into exactly two
fields passes the underscore check but raises `IndexError` at `names[2]`. -/
def Feature.random_intragenic_simulation (f : Feature)
    (allowed_regions_dict : List ((String × String × String) × List (ℤ × ℤ)))
    (query_bed : List BedRec) (tape : ℕ → ℕ → ℕ × ℕ) : Except PyErr SimScore :=
  let names := pySplit f.name
  if names.length < 2 then Except.ok SimScore.nameError1
  else if 2 < names.length then
    match List.lookup f.intragenicKey allowed_regions_dict with
    | some allowed_regions =>
        runLoop (fun k => intragenicStep f allowed_regions query_bed (tape k))
          SimScore.NA 1 100
    | none => Except.ok SimScore.nameError2
  else Except.error PyErr.indexError

/-- One attempt of the outer `random_flanking_simulation` loop. -/
def flankingSimStep (f : Feature) (not_allowed query_bed : List BedRec)
    (window_r window_l : ℤ) (t : ℕ → Bool × ℕ) :
    Except PyErr (Option SimScore) := do
  let random_region ← f.random_flanking_regions not_allowed window_r window_l t
  let random_features := run_bedextract random_region query_bed
  if random_features ≠ [] then
    pure (some (calculate_mean_score random_features))
  else
    pure none

/-- `Feature.random_flanking_simulation`: the 100-attempt outer loop around
`random_flanking_regions` plus score-store query. -/
def Feature.random_flanking_simulation (f : Feature)
    (not_allowed query_bed : List BedRec) (window_r window_l : ℤ)
    (tape : ℕ → ℕ → Bool × ℕ) : Except PyErr SimScore :=
  runLoop
    (fun k => flankingSimStep f not_allowed query_bed window_r window_l (tape k))
    SimScore.NA 1 100

/-! Helper lemmas about the loop combinator, the random primitives and the
monadic plumbing, shared by the claim theorems below. -/

theorem bind_ok_inv {ε α β : Type} {m : Except ε α} {g : α → Except ε β}
    {b : β} (h : m >>= g = Except.ok b) :
    ∃ v, m = Except.ok v ∧ g v = Except.ok b := by
  cases m with
  | error e => simp [Bind.bind, Except.bind] at h
  | ok v => exact ⟨v, rfl, by simpa [Bind.bind, Except.bind] using h⟩

theorem bind_ok_of_ok {ε α β : Type} {m : Except ε α} {g : α → Except ε β}
    {v : α} (hv : m = Except.ok v) : m >>= g = g v := by
  subst hv; rfl

theorem runLoop_congr {α : Type} (step step' : ℕ → Except PyErr (Option α))
    (dflt : α) (k fuel : ℕ)
    (h : ∀ j, k ≤ j → j < k + fuel → step j = step' j) :
    runLoop step dflt k fuel = runLoop step' dflt k fuel := by
  induction fuel generalizing k with
  | zero => rfl
  | succ n ih =>
      have hk : step k = step' k := h k le_rfl (by omega)
      simp only [runLoop, hk]
      cases step' k with
      | error e => rfl
      | ok o =>
          cases o with
          | some a => rfl
          | none => exact ih (k + 1) (fun j hj1 hj2 => h j (by omega) (by omega))

theorem runLoop_all_none {α : Type} (step : ℕ → Except PyErr (Option α))
    (dflt : α) (k fuel : ℕ)
    (h : ∀ j, k ≤ j → j < k + fuel → step j = Except.ok none) :
    runLoop step dflt k fuel = Except.ok dflt := by
  induction fuel generalizing k with
  | zero => rfl
  | succ n ih =>
      have hk := h k le_rfl (by omega)
      simp only [runLoop, hk]
      exact ih (k + 1) (fun j hj1 hj2 => h j (by omega) (by omega))

theorem runLoop_first_some {α : Type} (step : ℕ → Except PyErr (Option α))
    (dflt : α) (k fuel j : ℕ) (a : α)
    (hj1 : k ≤ j) (hj2 : j < k + fuel)
    (hsome : step j = Except.ok (some a))
    (hbefore : ∀ i, k ≤ i → i < j → step i = Except.ok none) :
    runLoop step dflt k fuel = Except.ok a := by
  induction fuel generalizing k with
  | zero => omega
  | succ n ih =>
      by_cases hkj : k = j
      · subst hkj
        simp only [runLoop, hsome]
      · have hk : step k = Except.ok none := hbefore k le_rfl (by omega)
        simp only [runLoop, hk]
        exact ih (k + 1) (by omega) (by omega)
          (fun i h1 h2 => hbefore i (by omega) h2)

theorem runLoop_ok_some {α : Type} (step : ℕ → Except PyErr (Option α))
    (dflt : α) (k fuel : ℕ) (a : α)
    (h : runLoop step dflt k fuel = Except.ok a) (hne : a ≠ dflt) :
    ∃ j, k ≤ j ∧ j < k + fuel ∧ step j = Except.ok (some a) := by
  induction fuel generalizing k with
  | zero =>
      simp only [runLoop] at h
      injection h with h'
      exact absurd h'.symm hne
  | succ n ih =>
      simp only [runLoop] at h
      cases hstep : step k with
      | error e => rw [hstep] at h; cases h
      | ok o =>
          rw [hstep] at h
          cases o with
          | some b =>
              injection h with h'
              subst h'
              exact ⟨k, le_rfl, by omega, hstep⟩
          | none =>
              rcases ih (k + 1) h with ⟨j, h1, h2, h3⟩
              exact ⟨j, by omega, by omega, h3⟩

theorem runLoop_no_error {α : Type} (step : ℕ → Except PyErr (Option α))
    (dflt : α) (k fuel : ℕ)
    (h : ∀ j, k ≤ j → j < k + fuel → ∃ o, step j = Except.ok o) :
    ∃ a, runLoop step dflt k fuel = Except.ok a := by
  induction fuel generalizing k with
  | zero => exact ⟨dflt, rfl⟩
  | succ n ih =>
      rcases h k le_rfl (by omega) with ⟨o, ho⟩
      cases o with
      | some a => exact ⟨a, by simp only [runLoop, ho]⟩
      | none =>
          rcases ih (k + 1) (fun j h1 h2 => h j (by omega) (by omega)) with ⟨a, ha⟩
          exact ⟨a, by simp only [runLoop, ho]; exact ha⟩

theorem randrange_ok {a b : ℤ} {d : ℕ} {x : ℤ}
    (h : randrange a b d = Except.ok x) : a ≤ x ∧ x < b ∧ a < b := by
  unfold randrange at h
  split at h
  next hab =>
    injection h with h'
    have h0 : (0 : ℤ) ≤ ((d % (b - a).toNat : ℕ) : ℤ) := Int.ofNat_nonneg _
    have hlt : d % (b - a).toNat < (b - a).toNat := Nat.mod_lt _ (by omega)
    have hcast : ((d % (b - a).toNat : ℕ) : ℤ) < ((b - a).toNat : ℤ) := by
      exact_mod_cast hlt
    have htn : (((b - a).toNat : ℕ) : ℤ) = b - a := Int.toNat_of_nonneg (by omega)
    omega
  next => cases h

theorem randrange_isOk (a b : ℤ) (d : ℕ) (hab : a < b) :
    randrange a b d = Except.ok (a + ((d % (b - a).toNat : ℕ) : ℤ)) := by
  unfold randrange
  rw [if_pos hab]

theorem pickRegion_ok {allowed : List (ℤ × ℤ)} {i : ℕ} {p : ℤ × ℤ}
    (h : pickRegion allowed i = Except.ok p) : p ∈ allowed := by
  cases allowed with
  | nil => cases h
  | cons a rest =>
      injection h with h'
      subst h'
      exact List.get_mem _ _ _

theorem randomRegionsStep_some {f : Feature} {allowed : List (ℤ × ℤ)}
    {t : ℕ × ℕ} {r : BedRegion}
    (h : randomRegionsStep f allowed t = Except.ok (some r)) :
    ∃ p ∈ allowed, ∃ s : ℤ,
      r = BedRegion.reg f.chrom s (s + f.size) ∧
      p.1 ≤ s ∧ s < p.2 ∧ s + f.size < p.2 ∧
      check_overlap f.featureString r = false := by
  unfold randomRegionsStep at h
  rcases bind_ok_inv h with ⟨p, hp, h2⟩
  rcases bind_ok_inv h2 with ⟨s, hs, h3⟩
  rcases randrange_ok hs with ⟨hs1, hs2, _⟩
  refine ⟨p, pickRegion_ok hp, s, ?_⟩
  simp only [] at h3
  by_cases hcond : s + f.size < p.2 ∧
      check_overlap f.featureString (BedRegion.reg f.chrom s (s + f.size)) = false
  · rw [if_pos hcond] at h3
    injection h3 with h3'
    injection h3' with h3''
    exact ⟨h3''.symm, hs1, hs2, hcond.1, by rw [← h3'']; exact hcond.2⟩
  · rw [if_neg hcond] at h3
    injection h3 with h3'
    cases h3'

theorem randomRegionsStep_isOk (f : Feature) (allowed : List (ℤ × ℤ))
    (t : ℕ × ℕ) (hne : allowed ≠ []) (hpos : ∀ p ∈ allowed, p.1 < p.2) :
    ∃ o, randomRegionsStep f allowed t = Except.ok o := by
  unfold randomRegionsStep
  cases allowed with
  | nil => exact absurd rfl hne
  | cons a rest =>
      have h1 : pickRegion (a :: rest) t.1 =
          Except.ok ((a :: rest).get
            ⟨t.1 % (a :: rest).length, Nat.mod_lt _ (Nat.succ_pos rest.length)⟩) := rfl
      rw [bind_ok_of_ok h1]
      have hmem : (a :: rest).get
          ⟨t.1 % (a :: rest).length, Nat.mod_lt _ (Nat.succ_pos rest.length)⟩ ∈
          a :: rest := List.get_mem _ _ _
      have hab := hpos _ hmem
      rw [bind_ok_of_ok (randrange_isOk _ _ t.2 hab)]
      simp only []
      split
      · exact ⟨_, rfl⟩
      · exact ⟨none, rfl⟩

theorem intragenicStep_none {f : Feature} {allowed : List (ℤ × ℤ)}
    {q : List BedRec} {t : ℕ → ℕ × ℕ} {rk : BedRegion}
    (hr : f.random_regions allowed t = Except.ok rk)
    (hq : run_bedextract rk q = []) :
    intragenicStep f allowed q t = Except.ok none := by
  unfold intragenicStep
  rw [bind_ok_of_ok hr]
  simp only []
  rw [if_neg (fun hcon => hcon hq)]
  rfl

theorem intragenicStep_some {f : Feature} {allowed : List (ℤ × ℤ)}
    {q : List BedRec} {t : ℕ → ℕ × ℕ} {rk : BedRegion}
    (hr : f.random_regions allowed t = Except.ok rk)
    (hq : run_bedextract rk q ≠ []) :
    intragenicStep f allowed q t =
      Except.ok (some (calculate_mean_score (run_bedextract rk q))) := by
  unfold intragenicStep
  rw [bind_ok_of_ok hr]
  simp only []
  rw [if_pos hq]
  rfl

theorem flankingSimStep_none {f : Feature} {na q : List BedRec}
    {wr wl : ℤ} {t : ℕ → Bool × ℕ} {rk : BedRegion}
    (hr : f.random_flanking_regions na wr wl t = Except.ok rk)
    (hq : run_bedextract rk q = []) :
    flankingSimStep f na q wr wl t = Except.ok none := by
  unfold flankingSimStep
  rw [bind_ok_of_ok hr]
  simp only []
  rw [if_neg (fun hcon => hcon hq)]
  rfl

theorem flankingSimStep_some {f : Feature} {na q : List BedRec}
    {wr wl : ℤ} {t : ℕ → Bool × ℕ} {rk : BedRegion}
    (hr : f.random_flanking_regions na wr wl t = Except.ok rk)
    (hq : run_bedextract rk q ≠ []) :
    flankingSimStep f na q wr wl t =
      Except.ok (some (calculate_mean_score (run_bedextract rk q))) := by
  unfold flankingSimStep
  rw [bind_ok_of_ok hr]
  simp only []
  rw [if_pos hq]
  rfl

theorem randomFlankingStep_some_iff (f : Feature) (na : List BedRec)
    (right left : ℤ × ℤ) (t : Bool × ℕ) (r : BedRegion) :
    randomFlankingStep f na right left t = Except.ok (some r) ↔
      ∃ s e : ℤ, r = BedRegion.reg f.chrom s e ∧
        flankingCandidate f na (if t.1 then right else left) t.2 =
          Except.ok (s, e) ∧
        e < (if t.1 then right else left).2 ∧
        check_overlap f.featureString (BedRegion.reg f.chrom s e) = false := by
  constructor
  · intro h
    unfold randomFlankingStep at h
    simp only [] at h
    rcases bind_ok_inv h with ⟨v, hv, h2⟩
    by_cases hcond : v.2 < (if t.1 then right else left).2 ∧
        check_overlap f.featureString (BedRegion.reg f.chrom v.1 v.2) = false
    · rw [if_pos hcond] at h2
      injection h2 with h2'
      injection h2' with h2''
      exact ⟨v.1, v.2, h2''.symm, hv, hcond.1, hcond.2⟩
    · rw [if_neg hcond] at h2
      injection h2 with h2'
      cases h2'
  · rintro ⟨s, e, hr, hc, hlt, hov⟩
    subst hr
    unfold randomFlankingStep
    rw [bind_ok_of_ok hc]
    simp only []
    rw [if_pos ⟨hlt, hov⟩]
    rfl

theorem flankingCandidate_upstream {f : Feature} {na : List BedRec}
    {flanking : ℤ × ℤ} {draw : ℕ} {s e : ℤ} {g : BedRec} {gs : List BedRec}
    (hov : run_bedextract (BedRegion.reg f.chrom flanking.1 flanking.2) na =
      g :: gs)
    (hup : flanking.2 < f.start)
    (h : flankingCandidate f na flanking draw = Except.ok (s, e)) :
    ((g :: gs).getLastD emptyRec).stop ≤ s ∧ s < f.start ∧
      e = s + f.size := by
  unfold flankingCandidate at h
  simp only [] at h
  split at h
  next heq =>
    rw [hov] at heq
    cases heq
  next g' gs' heq =>
    rw [hov] at heq
    injection heq with he1 he2
    subst he1
    subst he2
    rw [if_pos hup] at h
    rcases bind_ok_inv h with ⟨x, hx, h2⟩
    rcases randrange_ok hx with ⟨h1, h2', _⟩
    injection h2 with h2''
    injection h2'' with ha hb
    subst ha
    constructor
    · omega
    · exact ⟨h2', hb.symm⟩

/-! Claim theorems. -/

/-- C9: for every feature and window parameters, `flanking_regions` returns
the right interval `[end + window_r, end + size + window_r)` and the left
interval `[start − window_l − size, start − window_l)`, each of size exactly
`feature.size`; it is a pure function of the feature geometry with no
failure modes (negative coordinates permitted, the type is total). -/
theorem C9_flanking_regions_geometry (f : Feature) (window_r window_l : ℤ) :
    f.flanking_regions window_r window_l =
      (BedRegion.reg f.chrom (f.stop + window_r) (f.stop + f.size + window_r),
       BedRegion.reg f.chrom (f.start - window_l - f.size) (f.start - window_l)) ∧
    (f.stop + f.size + window_r) - (f.stop + window_r) = f.size ∧
    (f.start - window_l) - (f.start - window_l - f.size) = f.size :=
  ⟨rfl, by ring, by ring⟩

/-- C8: `calculate_mean_score` yields "NA" exactly on an empty input; a
non-empty input yields the unweighted arithmetic mean of the score fields
(sum over count), so a singleton returns its own score and a pair returns
the half-sum, independent of the order of the two inputs. -/
theorem C8_mean_score_contract :
    calculate_mean_score [] = SimScore.NA ∧
    (∀ l : List BedRec, l ≠ [] →
      calculate_mean_score l =
        SimScore.val ((l.map BedRec.score).sum / ((l.length : ℕ) : ℚ)) ∧
      calculate_mean_score l ≠ SimScore.NA) ∧
    (∀ r : BedRec, calculate_mean_score [r] = SimScore.val r.score) ∧
    (∀ r1 r2 : BedRec,
      calculate_mean_score [r1, r2] =
        SimScore.val ((r1.score + r2.score) / 2) ∧
      calculate_mean_score [r1, r2] = calculate_mean_score [r2, r1]) := by
  refine ⟨rfl, ?_, ?_, ?_⟩
  · intro l hl
    rw [calculate_mean_score, if_neg hl]
    exact ⟨rfl, by intro hco; cases hco⟩
  · intro r
    rw [calculate_mean_score, if_neg (by simp)]
    simp
  · intro r1 r2
    constructor
    · rw [calculate_mean_score, if_neg (by simp)]
      congr 1
      simp
    · rw [calculate_mean_score, if_neg (by simp),
        calculate_mean_score, if_neg (by simp)]
      congr 1
      simp
      ring

/-- Witness for C8: the non-empty-input clause evaluated at a concrete
singleton store. -/
theorem C8_mean_score_contract_witness :
    calculate_mean_score [(⟨"chr1", 0, 1, 3⟩ : BedRec)] =
      SimScore.val
        ((([(⟨"chr1", 0, 1, 3⟩ : BedRec)].map BedRec.score).sum) /
          ((([(⟨"chr1", 0, 1, 3⟩ : BedRec)].length : ℕ) : ℚ))) ∧
    calculate_mean_score [(⟨"chr1", 0, 1, 3⟩ : BedRec)] ≠ SimScore.NA :=
  C8_mean_score_contract.2.1 [⟨"chr1", 0, 1, 3⟩] (by simp)

/-- The right flank window used by `flanking_simulation`
(`flanking_regions` at the default `window_r = window_l = 1`). -/
def rightFlank1 (f : Feature) : BedRegion := (f.flanking_regions 1 1).1

/-- The left flank window used by `flanking_simulation`. -/
def leftFlank1 (f : Feature) : BedRegion := (f.flanking_regions 1 1).2

theorem rightFlank1_eq (f : Feature) :
    rightFlank1 f = BedRegion.reg f.chrom (f.stop + 1) (f.stop + f.size + 1) := rfl

theorem leftFlank1_eq (f : Feature) :
    leftFlank1 f = BedRegion.reg f.chrom (f.start - 1 - f.size) (f.start - 1) := rfl

theorem flanking_simulation_unfold (f : Feature) (na q : List BedRec) :
    f.flanking_simulation na q =
      if run_bedextract (rightFlank1 f) na ≠ [] ∧
          run_bedextract (leftFlank1 f) na ≠ [] then
        SimScore.NA
      else if run_bedextract (rightFlank1 f) na ≠ [] ∧
          run_bedextract (leftFlank1 f) na = [] then
        calculate_mean_score (run_bedextract (leftFlank1 f) q)
      else if run_bedextract (rightFlank1 f) na = [] ∧
          run_bedextract (leftFlank1 f) na ≠ [] then
        calculate_mean_score (run_bedextract (rightFlank1 f) q)
      else
        match calculate_mean_score (run_bedextract (leftFlank1 f) q),
            calculate_mean_score (run_bedextract (rightFlank1 f) q) with
        | SimScore.val a, SimScore.val b => SimScore.val ((a + b) / 2)
        | SimScore.val a, _ => SimScore.val a
        | _, SimScore.val b => SimScore.val b
        | _, _ => SimScore.NA := rfl

/-- C1: `flanking_simulation` follows the four-row decision table
exhaustively.  Both windows blocked gives "NA"; only the right window
blocked gives the left window's score-store mean; only the left window
blocked gives the right window's mean; with neither window blocked the
result is the arithmetic mean of the two side-means when both sides have
scores, the single available side-mean when exactly one side has scores,
and "NA" when neither side has scores. -/
theorem C1_flanking_decision_table (f : Feature) (na q : List BedRec) :
    (windowOverlaps (rightFlank1 f) na → windowOverlaps (leftFlank1 f) na →
       f.flanking_simulation na q = SimScore.NA) ∧
    (windowOverlaps (rightFlank1 f) na → ¬ windowOverlaps (leftFlank1 f) na →
       f.flanking_simulation na q =
         calculate_mean_score (run_bedextract (leftFlank1 f) q)) ∧
    (¬ windowOverlaps (rightFlank1 f) na → windowOverlaps (leftFlank1 f) na →
       f.flanking_simulation na q =
         calculate_mean_score (run_bedextract (rightFlank1 f) q)) ∧
    (¬ windowOverlaps (rightFlank1 f) na → ¬ windowOverlaps (leftFlank1 f) na →
       ((run_bedextract (leftFlank1 f) q ≠ [] →
           run_bedextract (rightFlank1 f) q ≠ [] →
           f.flanking_simulation na q =
             SimScore.val
               ((sideMean (leftFlank1 f) q + sideMean (rightFlank1 f) q) / 2)) ∧
        (run_bedextract (leftFlank1 f) q ≠ [] →
           run_bedextract (rightFlank1 f) q = [] →
           f.flanking_simulation na q = SimScore.val (sideMean (leftFlank1 f) q)) ∧
        (run_bedextract (leftFlank1 f) q = [] →
           run_bedextract (rightFlank1 f) q ≠ [] →
           f.flanking_simulation na q = SimScore.val (sideMean (rightFlank1 f) q)) ∧
        (run_bedextract (leftFlank1 f) q = [] →
           run_bedextract (rightFlank1 f) q = [] →
           f.flanking_simulation na q = SimScore.NA))) := by
  have hRiff : windowOverlaps (rightFlank1 f) na ↔
      run_bedextract (rightFlank1 f) na ≠ [] := by
    rw [rightFlank1_eq]
    exact windowOverlaps_iff _ _ _ _
  have hLiff : windowOverlaps (leftFlank1 f) na ↔
      run_bedextract (leftFlank1 f) na ≠ [] := by
    rw [leftFlank1_eq]
    exact windowOverlaps_iff _ _ _ _
  refine ⟨?_, ?_, ?_, ?_⟩
  · intro hR hL
    rw [flanking_simulation_unfold, if_pos ⟨hRiff.mp hR, hLiff.mp hL⟩]
  · intro hR hL
    have hR' := hRiff.mp hR
    have hL' : run_bedextract (leftFlank1 f) na = [] := by
      by_contra hc
      exact hL (hLiff.mpr hc)
    rw [flanking_simulation_unfold, if_neg (fun hco => hco.2 hL'),
      if_pos ⟨hR', hL'⟩]
  · intro hR hL
    have hL' := hLiff.mp hL
    have hR' : run_bedextract (rightFlank1 f) na = [] := by
      by_contra hc
      exact hR (hRiff.mpr hc)
    rw [flanking_simulation_unfold, if_neg (fun hco => hco.1 hR'),
      if_neg (fun hco => hco.1 hR'), if_pos ⟨hR', hL'⟩]
  · intro hR hL
    have hR' : run_bedextract (rightFlank1 f) na = [] := by
      by_contra hc
      exact hR (hRiff.mpr hc)
    have hL' : run_bedextract (leftFlank1 f) na = [] := by
      by_contra hc
      exact hL (hLiff.mpr hc)
    rw [flanking_simulation_unfold, if_neg (fun hco => hco.1 hR'),
      if_neg (fun hco => hco.1 hR'), if_neg (fun hco => hco.2 hL')]
    refine ⟨?_, ?_, ?_, ?_⟩
    · intro hLq hRq
      rw [calculate_mean_score, if_neg hLq, calculate_mean_score, if_neg hRq]
      rfl
    · intro hLq hRq
      rw [calculate_mean_score, if_neg hLq, calculate_mean_score, if_pos hRq]
      rfl
    · intro hLq hRq
      rw [calculate_mean_score, if_pos hLq, calculate_mean_score, if_neg hRq]
      rfl
    · intro hLq hRq
      rw [calculate_mean_score, if_pos hLq, calculate_mean_score, if_pos hRq]

/-- Witness for C1: the spec's end-to-end scenario — feature
`chr1:1000-1010`, a not-allowed record covering the right flank, a scored
record of score 2 on the left flank — lands in row 2 of the table. -/
theorem C1_flanking_decision_table_witness :
    (⟨"chr1", 1000, 1010, "mir", "+"⟩ : Feature).flanking_simulation
        [⟨"chr1", 1011, 3000, 0⟩] [⟨"chr1", 980, 990, 2⟩] =
      calculate_mean_score (run_bedextract
        (leftFlank1 ⟨"chr1", 1000, 1010, "mir", "+"⟩) [⟨"chr1", 980, 990, 2⟩]) :=
  (C1_flanking_decision_table ⟨"chr1", 1000, 1010, "mir", "+"⟩
      [⟨"chr1", 1011, 3000, 0⟩] [⟨"chr1", 980, 990, 2⟩]).2.1
    ((windowOverlaps_iff _ _ _ _).mpr (by decide))
    (fun hco => by
      have := (windowOverlaps_iff "chr1" (1000 - 1 - 10) (1000 - 1)
        [⟨"chr1", 1011, 3000, 0⟩]).mp hco
      exact this (by decide))

/-- C4: whenever `random_regions` returns a non-sentinel interval, that
interval does not overlap the feature's own interval, and it was drawn from
some allowed region pair whose start bounds the candidate start from below
and whose end strictly bounds the candidate end from above. -/
theorem C4_random_regions_invariant (f : Feature) (allowed : List (ℤ × ℤ))
    (tape : ℕ → ℕ × ℕ) (c : String) (s e : ℤ)
    (_hne : allowed ≠ [])
    (h : f.random_regions allowed tape = Except.ok (BedRegion.reg c s e)) :
    check_overlap f.featureString (BedRegion.reg c s e) = false ∧
    ∃ p ∈ allowed, p.1 ≤ s ∧ s < p.2 ∧ e < p.2 := by
  rcases runLoop_ok_some _ _ _ _ _ h (fun hco => BedRegion.noConfusion hco)
    with ⟨j, hj1, hj2, hstep⟩
  rcases randomRegionsStep_some hstep with ⟨p, hp, sa, hr, h1, h2, h3, h4⟩
  injection hr with hc1 hc2 hc3
  subst hc1
  subst hc2
  subst hc3
  exact ⟨h4, p, hp, h1, h2, h3⟩

/-- Witness for C4 at a concrete accepting run: feature `chr1:[10,12)`,
allowed region `(100, 200)`, constant tape; the first attempt accepts
`chr1:[100,102)`. -/
theorem C4_random_regions_invariant_witness :
    check_overlap (Feature.featureString ⟨"chr1", 10, 12, "m", "+"⟩)
      (BedRegion.reg "chr1" 100 102) = false ∧
    ∃ p ∈ [((100 : ℤ), (200 : ℤ))], p.1 ≤ 100 ∧ (100 : ℤ) < p.2 ∧ (102 : ℤ) < p.2 :=
  C4_random_regions_invariant ⟨"chr1", 10, 12, "m", "+"⟩ [(100, 200)]
    (fun _ => (0, 0)) "chr1" 100 102 (by simp) rfl

/-- C5: both samplers consult only the draws of attempts 1 through 100 (the
result is unchanged under any tape that agrees there, so neither loop can
run nor consume randomness beyond 100 iterations), and whenever every one
of the 100 attempts rejects its candidate, the result is the NA sentinel
interval. -/
theorem C5_retry_budget :
    (∀ (f : Feature) (allowed : List (ℤ × ℤ)) (tape : ℕ → ℕ × ℕ),
       (∀ k, 1 ≤ k → k ≤ 100 →
          randomRegionsStep f allowed (tape k) = Except.ok none) →
       f.random_regions allowed tape = Except.ok BedRegion.sentinel) ∧
    (∀ (f : Feature) (allowed : List (ℤ × ℤ)) (tape tape' : ℕ → ℕ × ℕ),
       (∀ k, k ≤ 100 → tape k = tape' k) →
       f.random_regions allowed tape = f.random_regions allowed tape') ∧
    (∀ (f : Feature) (na : List BedRec) (wr wl : ℤ) (tape : ℕ → Bool × ℕ),
       (∀ k, 1 ≤ k → k ≤ 100 →
          randomFlankingStep f na (rightWindow f wr) (leftWindow f wl) (tape k) =
            Except.ok none) →
       f.random_flanking_regions na wr wl tape = Except.ok BedRegion.sentinel) ∧
    (∀ (f : Feature) (na : List BedRec) (wr wl : ℤ) (tape tape' : ℕ → Bool × ℕ),
       (∀ k, k ≤ 100 → tape k = tape' k) →
       f.random_flanking_regions na wr wl tape =
         f.random_flanking_regions na wr wl tape') := by
  refine ⟨?_, ?_, ?_, ?_⟩
  · intro f allowed tape h
    exact runLoop_all_none _ _ _ _ (fun j h1 h2 => h j h1 (by omega))
  · intro f allowed tape tape' h
    exact runLoop_congr _ _ _ _ _ (fun j h1 h2 => by rw [h j (by omega)])
  · intro f na wr wl tape h
    exact runLoop_all_none _ _ _ _ (fun j h1 h2 => h j h1 (by omega))
  · intro f na wr wl tape tape' h
    exact runLoop_congr _ _ _ _ _ (fun j h1 h2 => by rw [h j (by omega)])

/-- Witness for C5: a search space engineered to be always-rejecting (the
feature is longer than every candidate window) drives both samplers to the
NA sentinel, and equal tapes trivially satisfy the agreement clause. -/
theorem C5_retry_budget_witness :
    (⟨"chr1", 0, 5, "m", "+"⟩ : Feature).random_regions [(0, 1)]
        (fun _ => (0, 0)) = Except.ok BedRegion.sentinel ∧
    (⟨"chr1", 0, 5, "m", "+"⟩ : Feature).random_flanking_regions [] 3 3
        (fun _ => (true, 0)) = Except.ok BedRegion.sentinel ∧
    (⟨"chr1", 0, 5, "m", "+"⟩ : Feature).random_regions [(0, 1)]
        (fun _ => (0, 0)) =
      (⟨"chr1", 0, 5, "m", "+"⟩ : Feature).random_regions [(0, 1)]
        (fun _ => (0, 0)) :=
  ⟨C5_retry_budget.1 _ _ _ (fun _ _ _ => rfl),
   C5_retry_budget.2.2.1 _ _ _ _ _ (fun _ _ _ => rfl),
   C5_retry_budget.2.1 _ _ _ _ (fun _ _ => rfl)⟩

/-- C7: a feature name without an underscore makes
`random_intragenic_simulation` return the malformed-name result
(`"NameError1"`) independently of every store and tape, before any
sampling; a decodable name whose key is absent from the allowed-region
index gives the key-not-found result (`"NameError2"`), likewise
independently of the score store and tape. -/
theorem C7_intragenic_name_guards :
    (∀ (f : Feature)
       (dict : List ((String × String × String) × List (ℤ × ℤ)))
       (q q' : List BedRec) (tape tape' : ℕ → ℕ → ℕ × ℕ),
       (pySplit f.name).length < 2 →
       f.random_intragenic_simulation dict q tape = Except.ok SimScore.nameError1 ∧
       f.random_intragenic_simulation dict q tape =
         f.random_intragenic_simulation dict q' tape') ∧
    (∀ (f : Feature)
       (dict : List ((String × String × String) × List (ℤ × ℤ)))
       (q q' : List BedRec) (tape tape' : ℕ → ℕ → ℕ × ℕ),
       2 < (pySplit f.name).length →
       List.lookup f.intragenicKey dict = none →
       f.random_intragenic_simulation dict q tape = Except.ok SimScore.nameError2 ∧
       f.random_intragenic_simulation dict q tape =
         f.random_intragenic_simulation dict q' tape') := by
  constructor
  · intro f dict q q' tape tape' hlen
    have mk1 : ∀ (qq : List BedRec) (tt : ℕ → ℕ → ℕ × ℕ),
        f.random_intragenic_simulation dict qq tt =
          Except.ok SimScore.nameError1 := by
      intro qq tt
      simp only [Feature.random_intragenic_simulation]
      rw [if_pos hlen]
    exact ⟨mk1 q tape, (mk1 q tape).trans (mk1 q' tape').symm⟩
  · intro f dict q q' tape tape' hlen hkey
    have mk2 : ∀ (qq : List BedRec) (tt : ℕ → ℕ → ℕ × ℕ),
        f.random_intragenic_simulation dict qq tt =
          Except.ok SimScore.nameError2 := by
      intro qq tt
      simp only [Feature.random_intragenic_simulation]
      rw [if_neg (by omega), if_pos hlen, hkey]
    exact ⟨mk2 q tape, (mk2 q tape).trans (mk2 q' tape').symm⟩

/-- Witness for C7: the spec's end-to-end scenarios `"mir123"` (no
underscore) and `"mir_ENSG1_ENST1"` against an empty index. -/
theorem C7_intragenic_name_guards_witness :
    (⟨"chr2", 0, 5, "mir123", "+"⟩ : Feature).random_intragenic_simulation
        [] [] (fun _ _ => (0, 0)) = Except.ok SimScore.nameError1 ∧
    (⟨"chr2", 0, 5, "mir_ENSG1_ENST1", "+"⟩ : Feature).random_intragenic_simulation
        [] [] (fun _ _ => (0, 0)) = Except.ok SimScore.nameError2 :=
  ⟨(C7_intragenic_name_guards.1 ⟨"chr2", 0, 5, "mir123", "+"⟩ [] [] []
      (fun _ _ => (0, 0)) (fun _ _ => (0, 0)) (by decide)).1,
   (C7_intragenic_name_guards.2 ⟨"chr2", 0, 5, "mir_ENSG1_ENST1", "+"⟩ [] [] []
      (fun _ _ => (0, 0)) (fun _ _ => (0, 0)) (by decide) rfl).1⟩

/-- C10: a feature name with exactly one underscore (two split fields)
passes the underscore check but raises `IndexError` while the
`(gene, transcript, chromosome)` key reads the third underscore-delimited
field, instead of returning the malformed-name sentinel; the malformed-name
result covers only names with no underscore at all. -/
theorem C10_single_underscore_index_error (f : Feature)
    (dict : List ((String × String × String) × List (ℤ × ℤ)))
    (q : List BedRec) (tape : ℕ → ℕ → ℕ × ℕ) :
    ((pySplit f.name).length = 2 →
       f.random_intragenic_simulation dict q tape =
         Except.error PyErr.indexError) ∧
    ((pySplit f.name).length < 2 →
       f.random_intragenic_simulation dict q tape =
         Except.ok SimScore.nameError1) := by
  constructor
  · intro hlen
    simp only [Feature.random_intragenic_simulation]
    rw [if_neg (by omega), if_neg (by omega)]
  · intro hlen
    simp only [Feature.random_intragenic_simulation]
    rw [if_pos hlen]

/-- Witness for C10: the name `"mir_ENSG1"` splits into two fields and hits
the `IndexError`. -/
theorem C10_single_underscore_index_error_witness :
    (⟨"chr2", 0, 5, "mir_ENSG1", "+"⟩ : Feature).random_intragenic_simulation
        [] [] (fun _ _ => (0, 0)) = Except.error PyErr.indexError :=
  (C10_single_underscore_index_error ⟨"chr2", 0, 5, "mir_ENSG1", "+"⟩ []
      [] (fun _ _ => (0, 0))).1 (by decide)

/-- C6: the outer loops of `random_intragenic_simulation` and
`random_flanking_simulation` rerun the whole sample-then-query cycle with a
brand-new candidate each iteration (attempt `k` consumes the `k`-th inner
tape), return the mean score of the first sample whose score-store query is
non-empty, and — when all 100 attempts query empty — return the
aggregator's value on an empty result, "NA". -/
theorem C6_outer_retry_loops :
    (∀ (f : Feature)
       (dict : List ((String × String × String) × List (ℤ × ℤ)))
       (q : List BedRec) (tape : ℕ → ℕ → ℕ × ℕ) (regions : List (ℤ × ℤ)),
       2 < (pySplit f.name).length →
       List.lookup f.intragenicKey dict = some regions →
       ((∀ k, 1 ≤ k → k ≤ 100 → ∃ rk,
            f.random_regions regions (tape k) = Except.ok rk ∧
            run_bedextract rk q = []) →
          f.random_intragenic_simulation dict q tape = Except.ok SimScore.NA) ∧
       (∀ j r, 1 ≤ j → j ≤ 100 →
          f.random_regions regions (tape j) = Except.ok r →
          run_bedextract r q ≠ [] →
          (∀ i, 1 ≤ i → i < j → ∃ ri,
             f.random_regions regions (tape i) = Except.ok ri ∧
             run_bedextract ri q = []) →
          f.random_intragenic_simulation dict q tape =
            Except.ok (calculate_mean_score (run_bedextract r q)))) ∧
    (∀ (f : Feature) (na q : List BedRec) (wr wl : ℤ)
       (tape : ℕ → ℕ → Bool × ℕ),
       ((∀ k, 1 ≤ k → k ≤ 100 → ∃ rk,
            f.random_flanking_regions na wr wl (tape k) = Except.ok rk ∧
            run_bedextract rk q = []) →
          f.random_flanking_simulation na q wr wl tape = Except.ok SimScore.NA) ∧
       (∀ j r, 1 ≤ j → j ≤ 100 →
          f.random_flanking_regions na wr wl (tape j) = Except.ok r →
          run_bedextract r q ≠ [] →
          (∀ i, 1 ≤ i → i < j → ∃ ri,
             f.random_flanking_regions na wr wl (tape i) = Except.ok ri ∧
             run_bedextract ri q = []) →
          f.random_flanking_simulation na q wr wl tape =
            Except.ok (calculate_mean_score (run_bedextract r q)))) := by
  constructor
  · intro f dict q tape regions hlen hkey
    have hsim : f.random_intragenic_simulation dict q tape =
        runLoop (fun k => intragenicStep f regions q (tape k)) SimScore.NA 1 100 := by
      simp only [Feature.random_intragenic_simulation]
      rw [if_neg (by omega), if_pos hlen, hkey]
    constructor
    · intro hall
      rw [hsim]
      refine runLoop_all_none _ _ _ _ (fun j h1 h2 => ?_)
      rcases hall j h1 (by omega) with ⟨rk, hok, hq⟩
      exact intragenicStep_none hok hq
    · intro j r hj1 hj2 hrj hqj hprev
      rw [hsim]
      refine runLoop_first_some _ _ _ _ j _ hj1 (by omega)
        (intragenicStep_some hrj hqj) (fun i h1 h2 => ?_)
      rcases hprev i h1 h2 with ⟨ri, hok, hq⟩
      exact intragenicStep_none hok hq
  · intro f na q wr wl tape
    constructor
    · intro hall
      refine runLoop_all_none _ _ _ _ (fun j h1 h2 => ?_)
      rcases hall j h1 (by omega) with ⟨rk, hok, hq⟩
      exact flankingSimStep_none hok hq
    · intro j r hj1 hj2 hrj hqj hprev
      refine runLoop_first_some _ _ _ _ j _ hj1 (by omega)
        (flankingSimStep_some hrj hqj) (fun i h1 h2 => ?_)
      rcases hprev i h1 h2 with ⟨ri, hok, hq⟩
      exact flankingSimStep_none hok hq

/-- Witness for C6: a feature keyed `(ENSG, ENST, chr1)` against an index
holding that key and a score store hit by the first sample; the first outer
attempt already queries non-empty, so the simulation returns its mean. -/
theorem C6_outer_retry_loops_witness :
    (⟨"chr1", 10, 12, "mir_ENSG_ENST", "+"⟩ : Feature).random_intragenic_simulation
        [(("ENSG", "ENST", "chr1"), [(100, 200)])]
        [⟨"chr1", 100, 101, 3⟩] (fun _ _ => (0, 0)) =
      Except.ok (calculate_mean_score (run_bedextract
        (BedRegion.reg "chr1" 100 102) [⟨"chr1", 100, 101, 3⟩])) :=
  ((C6_outer_retry_loops.1 ⟨"chr1", 10, 12, "mir_ENSG_ENST", "+"⟩
      [(("ENSG", "ENST", "chr1"), [(100, 200)])] [⟨"chr1", 100, 101, 3⟩]
      (fun _ _ => (0, 0)) [(100, 200)] (by decide) rfl).2)
    1 (BedRegion.reg "chr1" 100 102) le_rfl (by omega) rfl (by decide)
    (fun i h1 h2 => absurd h2 (by omega))

theorem pickRegion_cons (a : ℤ × ℤ) (rest : List (ℤ × ℤ)) (i : ℕ) :
    pickRegion (a :: rest) i =
      Except.ok ((a :: rest).get
        ⟨i % (a :: rest).length, Nat.mod_lt _ (Nat.succ_pos rest.length)⟩) := rfl

theorem ok_bind {ε α β : Type} (v : α) (g : α → Except ε β) :
    (Except.ok v : Except ε α) >>= g = g v := rfl

theorem runLoop_head_error {α : Type} (step : ℕ → Except PyErr (Option α))
    (dflt : α) (k fuel : ℕ) (e : PyErr) (h : step k = Except.error e) :
    runLoop step dflt k (fuel + 1) = Except.error e := by
  simp only [runLoop, h]

theorem randomRegionsStep_zero_len (f : Feature) (x : ℤ) (t : ℕ × ℕ) :
    randomRegionsStep f [(x, x)] t = Except.error PyErr.valueError := by
  unfold randomRegionsStep
  rw [pickRegion_cons, List.get_singleton, ok_bind]
  dsimp only
  unfold randrange
  rw [if_neg (lt_irrefl x)]
  rfl

/-- Counterexample to C3 as stated: `random_regions` on an empty
allowed-region list raises `IndexError` (Python: `regions_copy[0]` on an
empty list) on its first attempt instead of degrading to a sentinel. -/
theorem C3_counterexample :
    (⟨"chr1", 10, 12, "m", "+"⟩ : Feature).random_regions []
      (fun _ => (0, 0)) = Except.error PyErr.indexError := rfl

/-- C3 amended: the samplers are not total on the degenerate inputs the
claim lists — an empty allowed-region list raises `IndexError` and a
zero-length allowed region pair raises `ValueError` (from `randrange`) —
but on a non-empty allowed list whose pairs all have positive length,
`random_regions` never raises: every failure degrades to the sentinel. -/
theorem C3_amended_degenerate_inputs_raise :
    (∀ (f : Feature) (tape : ℕ → ℕ × ℕ),
       f.random_regions [] tape = Except.error PyErr.indexError) ∧
    (∀ (f : Feature) (x : ℤ) (tape : ℕ → ℕ × ℕ),
       f.random_regions [(x, x)] tape = Except.error PyErr.valueError) ∧
    (∀ (f : Feature) (allowed : List (ℤ × ℤ)) (tape : ℕ → ℕ × ℕ),
       allowed ≠ [] → (∀ p ∈ allowed, p.1 < p.2) →
       ∃ r, f.random_regions allowed tape = Except.ok r) := by
  refine ⟨?_, ?_, ?_⟩
  · intro f tape
    rfl
  · intro f x tape
    exact runLoop_head_error _ _ 1 99 _ (randomRegionsStep_zero_len f x (tape 1))
  · intro f allowed tape hne hpos
    exact runLoop_no_error _ _ _ _
      (fun j h1 h2 => randomRegionsStep_isOk f allowed (tape j) hne hpos)

/-- Witness for C3's amended totality clause: a well-formed singleton
allowed list yields an `Except.ok` result. -/
theorem C3_amended_degenerate_inputs_raise_witness :
    ∃ r, (⟨"chr1", 10, 12, "m", "+"⟩ : Feature).random_regions [(0, 10)]
      (fun _ => (0, 0)) = Except.ok r :=
  C3_amended_degenerate_inputs_raise.2.2 ⟨"chr1", 10, 12, "m", "+"⟩ [(0, 10)]
    (fun _ => (0, 0)) (by simp) (by decide)

/-- Counterexample to C2 as stated: with feature `chr1:[90,100)` and a
not-allowed record at `chr1:[105,200)` overlapping the downstream window,
the shrunk gap is `[100,105)`, yet the accepted candidate `chr1:[104,114)`
ends past the gap bound 105 (it even overlaps the not-allowed region):
after a downstream shrink only the original window bound is enforced. -/
theorem C2_counterexample :
    (⟨"chr1", 90, 100, "m", "+"⟩ : Feature).random_flanking_regions
        [⟨"chr1", 105, 200, 0⟩] 10000 10000 (fun _ => (true, 4)) =
      Except.ok (BedRegion.reg "chr1" 104 114) ∧
    run_bedextract (BedRegion.reg "chr1"
        (rightWindow ⟨"chr1", 90, 100, "m", "+"⟩ 10000).1
        (rightWindow ⟨"chr1", 90, 100, "m", "+"⟩ 10000).2)
        [⟨"chr1", 105, 200, 0⟩] = [⟨"chr1", 105, 200, 0⟩] ∧
    ¬ ((114 : ℤ) ≤ 105) ∧
    check_overlap (BedRegion.reg "chr1" 104 114)
      (BedRegion.reg "chr1" 105 200) = true :=
  ⟨rfl, rfl, by decide, rfl⟩

/-- C2 amended: `random_flanking_regions` accepts a candidate exactly when
its end is strictly below the chosen window's ORIGINAL upper bound and the
candidate does not overlap the feature.  Hence every accepted candidate
misses the feature, and an accepted candidate produced after an
upstream-window shrink lies inside the shrunk gap (between the last
overlapping not-allowed record's end and the feature start); a
downstream-shrunk candidate is bounded only by the original window bound
and may leave the shrunk gap. -/
theorem C2_amended_acceptance (f : Feature) (na : List BedRec) (wr wl : ℤ) :
    (∀ (tape : ℕ → Bool × ℕ) (c : String) (s e : ℤ),
       f.random_flanking_regions na wr wl tape =
         Except.ok (BedRegion.reg c s e) →
       c = f.chrom ∧
       check_overlap f.featureString (BedRegion.reg f.chrom s e) = false ∧
       ∃ k, 1 ≤ k ∧ k ≤ 100 ∧
         flankingCandidate f na
             (if (tape k).1 then rightWindow f wr else leftWindow f wl)
             (tape k).2 = Except.ok (s, e) ∧
         e < (if (tape k).1 then rightWindow f wr else leftWindow f wl).2 ∧
         (∀ g gs,
            run_bedextract (BedRegion.reg f.chrom
                (if (tape k).1 then rightWindow f wr else leftWindow f wl).1
                (if (tape k).1 then rightWindow f wr else leftWindow f wl).2)
              na = g :: gs →
            (if (tape k).1 then rightWindow f wr else leftWindow f wl).2 <
              f.start →
            ((g :: gs).getLastD emptyRec).stop ≤ s ∧ s < f.start ∧
              e = s + f.size)) ∧
    (∀ (t : Bool × ℕ) (r : BedRegion),
       randomFlankingStep f na (rightWindow f wr) (leftWindow f wl) t =
           Except.ok (some r) ↔
         ∃ s e : ℤ, r = BedRegion.reg f.chrom s e ∧
           flankingCandidate f na (if t.1 then rightWindow f wr else leftWindow f wl)
             t.2 = Except.ok (s, e) ∧
           e < (if t.1 then rightWindow f wr else leftWindow f wl).2 ∧
           check_overlap f.featureString (BedRegion.reg f.chrom s e) = false) := by
  constructor
  · intro tape c s e h
    rcases runLoop_ok_some _ _ _ _ _ h (fun hco => BedRegion.noConfusion hco)
      with ⟨k, hk1, hk2, hstep⟩
    rcases (randomFlankingStep_some_iff f na (rightWindow f wr)
        (leftWindow f wl) (tape k) _).mp hstep
      with ⟨sa, ea, hreq, hcand, hlt, hov⟩
    injection hreq with h1 h2 h3
    subst h1
    subst h2
    subst h3
    refine ⟨rfl, hov, k, hk1, by omega, hcand, hlt, ?_⟩
    intro g gs hbed hup
    exact flankingCandidate_upstream hbed hup hcand
  · intro t r
    exact randomFlankingStep_some_iff f na (rightWindow f wr) (leftWindow f wl) t r

/-- Witness for C2's amended theorem at the counterexample run: the
accepted candidate `chr1:[104,114)` does not overlap the feature, and some
attempt produced and accepted it. -/
theorem C2_amended_acceptance_witness :
    "chr1" = (⟨"chr1", 90, 100, "m", "+"⟩ : Feature).chrom ∧
    check_overlap (Feature.featureString ⟨"chr1", 90, 100, "m", "+"⟩)
      (BedRegion.reg (⟨"chr1", 90, 100, "m", "+"⟩ : Feature).chrom 104 114) =
      false ∧
    ∃ k, 1 ≤ k ∧ k ≤ 100 ∧
      flankingCandidate ⟨"chr1", 90, 100, "m", "+"⟩ [⟨"chr1", 105, 200, 0⟩]
          (if ((fun (_ : ℕ) => ((true : Bool), (4 : ℕ))) k).1 then
            rightWindow ⟨"chr1", 90, 100, "m", "+"⟩ 10000
          else leftWindow ⟨"chr1", 90, 100, "m", "+"⟩ 10000)
          ((fun (_ : ℕ) => ((true : Bool), (4 : ℕ))) k).2 =
        Except.ok (104, 114) ∧
      (114 : ℤ) <
        (if ((fun (_ : ℕ) => ((true : Bool), (4 : ℕ))) k).1 then
          rightWindow ⟨"chr1", 90, 100, "m", "+"⟩ 10000
        else leftWindow ⟨"chr1", 90, 100, "m", "+"⟩ 10000).2 ∧
      (∀ g gs,
         run_bedextract (BedRegion.reg (⟨"chr1", 90, 100, "m", "+"⟩ : Feature).chrom
             (if ((fun (_ : ℕ) => ((true : Bool), (4 : ℕ))) k).1 then
               rightWindow ⟨"chr1", 90, 100, "m", "+"⟩ 10000
             else leftWindow ⟨"chr1", 90, 100, "m", "+"⟩ 10000).1
             (if ((fun (_ : ℕ) => ((true : Bool), (4 : ℕ))) k).1 then
               rightWindow ⟨"chr1", 90, 100, "m", "+"⟩ 10000
             else leftWindow ⟨"chr1", 90, 100, "m", "+"⟩ 10000).2)
           [⟨"chr1", 105, 200, 0⟩] = g :: gs →
         (if ((fun (_ : ℕ) => ((true : Bool), (4 : ℕ))) k).1 then
           rightWindow ⟨"chr1", 90, 100, "m", "+"⟩ 10000
         else leftWindow ⟨"chr1", 90, 100, "m", "+"⟩ 10000).2 <
           (⟨"chr1", 90, 100, "m", "+"⟩ : Feature).start →
         ((g :: gs).getLastD emptyRec).stop ≤ 104 ∧
           (104 : ℤ) < (⟨"chr1", 90, 100, "m", "+"⟩ : Feature).start ∧
           (114 : ℤ) = 104 + (⟨"chr1", 90, 100, "m", "+"⟩ : Feature).size) :=
  (C2_amended_acceptance ⟨"chr1", 90, 100, "m", "+"⟩ [⟨"chr1", 105, 200, 0⟩]
      10000 10000).1 (fun _ => (true, 4)) "chr1" 104 114 rfl

end PhyloP

